import Mathlib

/-!
Shallow embedding of the worldcoin/tx-proxy request pipeline.

Each definition translates one item of the Rust sources:
`src/utils.rs` (RpcRequest, RpcResponse, parse_response_payload),
`src/client.rs` (HttpClient::forward, FanoutWrite::fan_request),
`src/validation.rs` (ValidationService::call, invalid_method_response,
ALLOWED_METHODS), `src/proxy.rs` (ProxyService::call) and
`src/auth.rs` (get_bearer, JwtAuthValidator::validate, AuthService::call).

External effects (the HTTP transport, serde_json parsing, JWT secret
verification, the tokio scheduler) are passed in as explicit arguments:
an `Option` argument stands for the outcome of a fallible external step
(`none` = the step failed, i.e. the Rust `?` would propagate an error),
and a detached `tokio::spawn` is recorded as a Boolean flag.
Machine-level HTTP response values are an opaque type parameter `T`.
-/

namespace TxProxy

/-- JSON-RPC error object carried by a response
(`jsonrpsee::types::ErrorObjectOwned`, projected to the two fields the
proxy inspects: `code()` and `message()`). -/
structure ErrorObject where
  code : Int
  message : String
deriving DecidableEq, Repr

/-- Constant `INTERNAL_ERROR_CODE` from `jsonrpsee::types::error`, the
JSON-RPC internal error code. -/
def INTERNAL_ERROR_CODE : Int := -32603

/-- Translation of `RpcResponse<T>` from `src/utils.rs`: the raw HTTP
response (opaque here) together with the parsed JSON-RPC error object,
if any. -/
structure RpcResponse (T : Type) where
  response : T
  error : Option ErrorObject
deriving DecidableEq, Repr

/-- Message prefix that marks a validator veto, from
`RpcResponse::pbh_error` in `src/utils.rs`. -/
def pbhMsgHead : String := "PBH Transaction Validation Failed"

/-- Semantics of Rust `str::starts_with`, on the character sequences of
the two strings. -/
def strStartsWith (s pat : String) : Bool :=
  pat.toList.isPrefixOf s.toList

/-- Translation of `RpcResponse::pbh_error` from `src/utils.rs`. -/
def RpcResponse.pbh_error {T : Type} (r : RpcResponse T) : Bool :=
  match r.error with
  | some e => e.code == INTERNAL_ERROR_CODE && strStartsWith e.message pbhMsgHead
  | none => false

/-- Modelled from the spec: `RpcResponse::is_error` is called by
`ValidationService::call` in `src/validation.rs` but its definition is
not among the given source files; the spec defines
`is_error() ⇔ error is populated`. -/
def RpcResponse.is_error {T : Type} (r : RpcResponse T) : Bool :=
  r.error.isSome

/-- Translation of `RpcRequest` from `src/utils.rs`: HTTP parts, raw
body bytes and the cached `"method"` string.  Parts and body stay
opaque type parameters. -/
structure RpcRequest (P B : Type) where
  parts : P
  body : B
  method : String
deriving DecidableEq, Repr

/-- Translation of `RpcRequest::from_request` from `src/utils.rs`.
`bodyRead` is the outcome of `http_helpers::read_body` (external I/O);
`decodeMethod` is the external `serde_json::from_slice::<Request>`
projected to the decoded `"method"` string.  Either failure propagates
(`?` in the Rust), so no `RpcRequest` is produced. -/
def from_request {P B : Type} (parts : P) (bodyRead : Option B)
    (decodeMethod : B → Option String) : Option (RpcRequest P B) :=
  match bodyRead with
  | none => none
  | some bodyBytes =>
    match decodeMethod bodyBytes with
    | none => none
    | some m => some { parts := parts, body := bodyBytes, method := m }

/-- Payload of a decoded JSON-RPC response
(`jsonrpsee::types::ResponsePayload`): either a success value or an
error object. -/
inductive ResponsePayload (V : Type) where
  | success (v : V)
  | error (e : ErrorObject)
deriving DecidableEq, Repr

/-- Translation of `parse_response_payload` from `src/utils.rs`.
`parsed` is the outcome of the external
`serde_json::from_slice::<Response<Value>>` on the body bytes; `none`
means that parse failed, and the function then returns `Err`
(here `none`).  On success it classifies the payload. -/
def parse_response_payload {V : Type}
    (parsed : Option (ResponsePayload V)) : Option (Option ErrorObject) :=
  match parsed with
  | none => none
  | some (.error obj) => some (some obj)
  | some (.success _) => some none

/-- Translation of `HttpClient::forward` from `src/client.rs`.
`transport` is the outcome of the pooled HTTP call plus body collection
(`none` = transport failure, propagated by `?`); `parsedBody` is the
outcome of the external serde parse of the collected body bytes.  The
Rust applies `?` to `parse_response_payload`, so a parse failure fails
the whole call. -/
def forward {T V : Type} (transport : Option T)
    (parsedBody : Option (ResponsePayload V)) : Option (RpcResponse T) :=
  match transport with
  | none => none
  | some resp =>
    match parse_response_payload parsedBody with
    | none => none
    | some payload => some { response := resp, error := payload }

/-- Translation of `futures::future::try_join_all` as used by
`FanoutWrite::fan_request` in `src/client.rs`: all outcomes must be
`Ok`, and the collected values keep their order. -/
def try_join_all {A : Type} : List (Option A) → Option (List A)
  | [] => some []
  | none :: _ => none
  | some a :: rest => (try_join_all rest).map (fun l => a :: l)

/-- Translation of `FanoutWrite::fan_request` from `src/client.rs`:
map `forward` over the targets in order and join all results.  `fwd`
stands for `HttpClient::forward` applied to the (cloned) request, one
outcome per target; `C` is the opaque `HttpClient` type. -/
def fan_request {C T : Type} (fwd : C → Option (RpcResponse T))
    (targets : List C) : Option (List (RpcResponse T)) :=
  try_join_all (targets.map fwd)

/-- Index of the first occurrence of `pat` as a contiguous sublist of
`l`, counting in elements — the semantics of Rust `str::find` used by
`get_bearer` in `src/auth.rs`. -/
def listFindSubstrIdx (pat : List Char) : List Char → Option Nat
  | [] => if pat.isEmpty then some 0 else none
  | c :: tl =>
    if pat.isPrefixOf (c :: tl) then some 0
    else (listFindSubstrIdx pat tl).map (fun i => i + 1)

/-- Substring containment — the semantics of Rust `str::contains` used
by the method allow-list check in `src/validation.rs`. -/
def strContains (s pat : String) : Bool :=
  (listFindSubstrIdx pat.toList s.toList).isSome

/-- Translation of `ALLOWED_METHODS` from `src/validation.rs`. -/
def ALLOWED_METHODS : List String := ["eth_", "net_peerCount"]

/-- Allow-list check from `ValidationService::call` in
`src/validation.rs`: `ALLOWED_METHODS.iter().any(|m| method.contains(m))`. -/
def allowedMethod (method : String) : Bool :=
  ALLOWED_METHODS.any (fun m => strContains method m)

/-- Synthetic HTTP response built by the proxy itself (status code,
Content-Type header and body string). -/
structure SynthResponse where
  status : Nat
  contentType : String
  body : String
deriving DecidableEq, Repr

/-- Rendering of `ErrorObject::owned(code, message, None).to_string()`
(jsonrpsee serializes the two fields and omits the absent data). -/
def ErrorObject.render (e : ErrorObject) : String :=
  "\x7b\"code\":" ++ toString e.code ++ ",\"message\":\"" ++ e.message ++ "\"\x7d"

/-- Translation of `invalid_method_response` from `src/validation.rs`. -/
def invalid_method_response : SynthResponse :=
  { status := 200
    contentType := "application/json"
    body := ErrorObject.render { code := -32601, message := "Method not found" } }

/-- Translation of the response-selection loop of
`ValidationService::call` (`src/validation.rs`, the `for res in
responses` loop): the accumulator is the `response` local
(`Option` of the chosen HTTP response). -/
def selectionLoop {T : Type} :
    List (RpcResponse T) → Option T → Option T
  | [], acc => acc
  | res :: rest, acc =>
    if res.pbh_error then some res.response
    else if acc.isNone && !res.is_error then
      selectionLoop rest (some res.response)
    else selectionLoop rest acc

/-- Translation of the selection tail of `ValidationService::call`:
`res_0 = responses.remove(0)`, then the loop, then
`response.unwrap_or(res_0)`.  `remove(0)` on an empty vector panics; an
empty input yields `none` here. -/
def selectResponse {T : Type} : List (RpcResponse T) → Option T
  | [] => none
  | res0 :: rest => some ((selectionLoop rest none).getD res0.response)

/-- Outcome of one `ValidationService::call` invocation: the future
resolves to `Err` (`errored`), to the synthetic allow-list rejection,
to a panic (`remove(0)` of no responses), or to a selected upstream
response. -/
inductive ValidationOutcome (T : Type) where
  | errored
  | invalidMethod (r : SynthResponse)
  | panicked
  | selected (t : T)
deriving DecidableEq, Repr

/-- Observable record of one `ValidationService::call` invocation:
whether the builder fan-out was invoked, whether the detached executor
task (`tokio::spawn` of `inner.call`) was spawned, and the outcome. -/
structure ValidationStep (T : Type) where
  fanInvoked : Bool
  spawned : Bool
  outcome : ValidationOutcome T
deriving DecidableEq, Repr

/-- Translation of the `call` future of `ValidationService`
(`src/validation.rs` lines 74–115).  `parsed` is the outcome of
`RpcRequest::from_request` (`none` = the `?` propagates); `fanResult`
is the outcome of `fanout.fan_request` (`none` = the `?` propagates).
The spawn condition is `responses.iter().all(|res| !res.pbh_error())`,
checked before `remove(0)`. -/
def validationCall {P B T : Type} (parsed : Option (RpcRequest P B))
    (fanResult : Option (List (RpcResponse T))) : ValidationStep T :=
  match parsed with
  | none => { fanInvoked := false, spawned := false, outcome := .errored }
  | some req =>
    if allowedMethod req.method then
      match fanResult with
      | none => { fanInvoked := true, spawned := false, outcome := .errored }
      | some responses =>
        let sp := responses.all (fun res => !res.pbh_error)
        match selectResponse responses with
        | none => { fanInvoked := true, spawned := sp, outcome := .panicked }
        | some t => { fanInvoked := true, spawned := sp, outcome := .selected t }
    else
      { fanInvoked := false, spawned := false
        outcome := .invalidMethod invalid_method_response }

/-- Outcome of one `ProxyService::call` invocation (`src/proxy.rs`):
`Err` propagated, a panic from `result.remove(0)` on no responses, or
the first fan-out response. -/
inductive ProxyOutcome (T : Type) where
  | errored
  | panicked
  | responded (t : T)
deriving DecidableEq, Repr

/-- Translation of the `call` future of `ProxyService`
(`src/proxy.rs` lines 69–76): materialize the request, fan it out, and
return `result.remove(0).response`. -/
def proxyCall {P B T : Type} (parsed : Option (RpcRequest P B))
    (fanResult : Option (List (RpcResponse T))) : ProxyOutcome T :=
  match parsed with
  | none => .errored
  | some _ =>
    match fanResult with
    | none => .errored
    | some [] => .panicked
    | some (res :: _) => .responded res.response

/-- Display string of
`alloy_rpc_types_engine::JwtError::MissingOrInvalidAuthorizationHeader`
(external crate), asserted verbatim by the repository's own auth
tests. -/
def missingAuthMsg : String := "Missing or invalid authorization header"

/-- Translation of `get_bearer` from `src/auth.rs`: take the first
`authorization` header, search the value for `"Bearer "` with
`str::find`, and return everything after that occurrence.  Header
values are modelled as strings (the `to_str` step of the Rust cannot
fail on them). -/
def get_bearer (headers : List (String × String)) : Option String :=
  match headers.find? (fun h => h.fst == "authorization") with
  | none => none
  | some h =>
    let pat : List Char := String.toList ("Bearer ")
    match listFindSubstrIdx pat h.snd.toList with
    | none => none
    | some i => some (String.mk (h.snd.toList.drop (i + pat.length)))

/-- Outcome of one `AuthService::call` invocation (`src/auth.rs`):
either the 401 response produced by `err_response`, or the inner
service invoked with the forwarded request. -/
inductive AuthResult (R : Type) where
  | unauthorized (status : Nat) (body : String)
  | forwarded (req : R)
deriving DecidableEq, Repr

/-- Translation of `AuthService::call` composed with
`JwtAuthValidator::validate` and `err_response` (`src/auth.rs`).
`secretValidate` stands for the external `JwtSecret::validate`:
`none` = token accepted, `some msg` = rejected with that rendered
`JwtError` message.  A missing bearer yields
`JwtError::MissingOrInvalidAuthorizationHeader`; every error becomes a
401 response whose body is the error's display string, and on success
the request is passed to the inner service unchanged. -/
def authCall {R : Type} (secretValidate : String → Option String)
    (headers : List (String × String)) (req : R) : AuthResult R :=
  match get_bearer headers with
  | some jwt =>
    match secretValidate jwt with
    | none => .forwarded req
    | some msg => .unauthorized 401 msg
  | none => .unauthorized 401 missingAuthMsg

/-- Statement of claim C1's selection rule, written from the spec's
words: veto anywhere in the tuple wins (first such response); else the
first response in Target order with `is_error()` false; else the first
response. -/
def specSelectClaimed {T : Type} (rs : List (RpcResponse T)) : Option T :=
  match rs.find? (fun r => r.pbh_error) with
  | some r => some r.response
  | none =>
    match rs.find? (fun r => !r.is_error) with
    | some r => some r.response
    | none => rs.head?.map (fun r => r.response)

/-- Selection rule the code actually implements, stated as a pure
function of the tuple: the first response is only a fallback; a
`pbh_error` among the responses after the first wins (first such);
else the first non-error among the responses after the first; else the
first response. -/
def specSelectTail {T : Type} (rs : List (RpcResponse T)) : Option T :=
  match rs with
  | [] => none
  | r0 :: rest =>
    match rest.find? (fun r => r.pbh_error) with
    | some r => some r.response
    | none =>
      match rest.find? (fun r => !r.is_error) with
      | some r => some r.response
      | none => some r0.response

/-- State of the spec's scanning algorithm (claim C2): the chosen
candidate, and the veto once one latched. -/
structure ScanState (T : Type) where
  candidate : Option T
  veto : Option T
deriving DecidableEq, Repr

/-- One step of the spec's scanning algorithm (claim C2): once a veto
latched nothing changes (the scan short-circuited); a `pbh_error`
latches the veto; otherwise a non-error response becomes the candidate
when none was chosen yet. -/
def scanStep {T : Type} (st : ScanState T) (r : RpcResponse T) : ScanState T :=
  if st.veto.isSome then st
  else if r.pbh_error then { candidate := st.candidate, veto := some r.response }
  else if st.candidate.isNone && !r.is_error then
    { candidate := some r.response, veto := none }
  else st

/-- Spec's scanning algorithm for claim C2, written from the spec's
words: remember the first response as fallback, scan the remaining
responses with `scanStep`, return the veto if one latched, else the
chosen candidate, else the first response. -/
def specSelectScan {T : Type} (rs : List (RpcResponse T)) : Option T :=
  match rs with
  | [] => none
  | r0 :: rest =>
    let st := rest.foldl scanStep { candidate := none, veto := none }
    some (match st.veto with
      | some v => v
      | none => st.candidate.getD r0.response)

/-! ### Helper lemmas on the selection loop and the fan-out -/

theorem selectionLoop_some_acc {T : Type} (rest : List (RpcResponse T)) (c : T) :
    selectionLoop rest (some c) =
      some ((((rest.find? (fun r => r.pbh_error))).map (fun r => r.response)).getD c) := by
  induction rest with
  | nil => simp [selectionLoop]
  | cons r rest ih =>
    cases hp : r.pbh_error
    · simp [selectionLoop, hp, List.find?_cons, ih]
    · simp [selectionLoop, hp, List.find?_cons]

theorem selectionLoop_none_acc {T : Type} (rest : List (RpcResponse T)) :
    selectionLoop rest none =
      (((rest.find? (fun r => r.pbh_error))).map (fun r => r.response)).or
        (((rest.find? (fun r => !r.is_error))).map (fun r => r.response)) := by
  induction rest with
  | nil => simp [selectionLoop]
  | cons r rest ih =>
    cases hp : r.pbh_error
    · cases he : r.is_error
      · simp [selectionLoop, hp, he, List.find?_cons, selectionLoop_some_acc]
        cases hf : rest.find? (fun r => r.pbh_error) <;> simp
      · simp [selectionLoop, hp, he, List.find?_cons, ih]
    · simp [selectionLoop, hp, List.find?_cons]

theorem foldl_scanStep_latched {T : Type} (rest : List (RpcResponse T))
    (c : Option T) (v : T) :
    rest.foldl scanStep { candidate := c, veto := some v } =
      { candidate := c, veto := some v } := by
  induction rest with
  | nil => rfl
  | cons r rest ih => simp [List.foldl_cons, scanStep, ih]

theorem scanStep_out_eq {T : Type} (rest : List (RpcResponse T))
    (c : Option T) (first : T) :
    (match (rest.foldl scanStep { candidate := c, veto := none }).veto with
     | some v => v
     | none => (rest.foldl scanStep { candidate := c, veto := none }).candidate.getD first) =
      (selectionLoop rest c).getD first := by
  induction rest generalizing c with
  | nil => simp [selectionLoop]
  | cons r rest ih =>
    cases hp : r.pbh_error
    · cases hc : c with
      | none =>
        cases he : r.is_error
        · have := ih (some r.response)
          simpa [List.foldl_cons, scanStep, hp, he, selectionLoop] using this
        · have := ih none
          simpa [List.foldl_cons, scanStep, hp, he, selectionLoop] using this
      | some x =>
        have := ih (some x)
        simpa [List.foldl_cons, scanStep, hp, selectionLoop] using this
    · simp [List.foldl_cons, scanStep, hp, foldl_scanStep_latched, selectionLoop]

theorem listFindSubstrIdx_isSome_iff {pat : List Char} : ∀ {l : List Char},
    (listFindSubstrIdx pat l).isSome = true ↔ pat <:+: l := by
  intro l
  induction l with
  | nil =>
    by_cases hp : pat = []
    · subst hp; simp [listFindSubstrIdx]
    · simp [listFindSubstrIdx, List.isEmpty_iff, hp]
  | cons c tl ih =>
    by_cases hp : pat <+: (c :: tl)
    · have hb : pat.isPrefixOf (c :: tl) = true := List.isPrefixOf_iff_prefix.mpr hp
      simp only [listFindSubstrIdx, hb, if_true]
      simpa using hp.isInfix
    · have hb : pat.isPrefixOf (c :: tl) = false := by
        rw [Bool.eq_false_iff]
        intro hcon
        exact hp (List.isPrefixOf_iff_prefix.mp hcon)
      simp only [listFindSubstrIdx, hb, Bool.false_eq_true, if_false,
        Option.isSome_map']
      rw [ih]
      constructor
      · exact fun h => List.infix_cons h
      · intro h
        rcases List.infix_cons_iff.mp h with h1 | h2
        · exact absurd h1 hp
        · exact h2

theorem strContains_iff_infix {s pat : String} :
    strContains s pat = true ↔ pat.toList <:+: s.toList :=
  listFindSubstrIdx_isSome_iff

theorem try_join_all_length {A : Type} : ∀ {l : List (Option A)} {ys : List A},
    try_join_all l = some ys → ys.length = l.length := by
  intro l
  induction l with
  | nil => intro ys h; simp [try_join_all] at h; simp [h]
  | cons o rest ih =>
    intro ys h
    cases o with
    | none => simp [try_join_all] at h
    | some a =>
      simp only [try_join_all, Option.map_eq_some'] at h
      rcases h with ⟨zs, hz, rfl⟩
      simp [ih hz]

theorem try_join_all_eq_none_of_mem {A : Type} {l : List (Option A)}
    (h : none ∈ l) : try_join_all l = none := by
  induction l with
  | nil => cases h
  | cons o rest ih =>
    cases o with
    | none => rfl
    | some a =>
      have : none ∈ rest := by
        rcases List.mem_cons.mp h with h1 | h2
        · cases h1
        · exact h2
      simp [try_join_all, ih this]

/-! ### Claim theorems -/

/-- Claim C1, counterexample.  The claim states that whenever any
response of the tuple is a `pbh_error`, that response is returned, and
that otherwise the first non-error response of the tuple is returned.
The code removes the first response as the fallback before scanning, so
position 0 is never examined by the loop: on the tuple
`[veto, success]` the success in position 1 is returned instead of the
veto, and on the tuple `[success, success]` the second success is
returned instead of the first. -/
theorem selection_first_veto_ignored :
    (selectResponse
        [(⟨0, some ⟨-32603, pbhMsgHead⟩⟩ : RpcResponse Nat), ⟨1, none⟩] = some 1 ∧
      specSelectClaimed
        [(⟨0, some ⟨-32603, pbhMsgHead⟩⟩ : RpcResponse Nat), ⟨1, none⟩] = some 0) ∧
    (selectResponse [(⟨0, none⟩ : RpcResponse Nat), ⟨1, none⟩] = some 1 ∧
      specSelectClaimed [(⟨0, none⟩ : RpcResponse Nat), ⟨1, none⟩] = some 0) := by
  refine ⟨⟨?_, ?_⟩, ?_, ?_⟩ <;> decide

/-- Claim C1 (amended): the response selected by `ValidationService::call`
is a pure function of the ordered tuple of validator responses, computed
as: if any response after the first is a `pbh_error`, the first such
response is returned; otherwise the first response after the first whose
`is_error()` is false is returned; otherwise the first response is
returned. -/
theorem select_response_pure_function {T : Type} (rs : List (RpcResponse T)) :
    selectResponse rs = specSelectTail rs := by
  cases rs with
  | nil => rfl
  | cons r0 rest =>
    simp only [selectResponse, specSelectTail, selectionLoop_none_acc]
    cases hf : rest.find? (fun r => r.pbh_error) <;>
      cases hg : rest.find? (fun r => !r.is_error) <;>
        simp [hf, hg, Option.or]

/-- Claim C2: the selection performed by `ValidationService::call`
follows exactly the spec's scanning algorithm — remember the first
response as fallback, scan the remaining responses in order with a
short-circuiting veto and a first-non-error candidate, and return the
veto, else the candidate, else the first response. -/
theorem select_response_follows_scan {T : Type} (rs : List (RpcResponse T)) :
    selectResponse rs = specSelectScan rs := by
  cases rs with
  | nil => rfl
  | cons r0 rest =>
    simp only [selectResponse, specSelectScan]
    exact congrArg some (scanStep_out_eq rest none r0.response).symm

/-- Claim C3: with the method allowed, the detached executor task is
spawned by `ValidationService::call` exactly when no validator response
(the first one included — the spawn check runs before `remove(0)`) is a
`pbh_error`: any veto suppresses the spawn, and absence of vetoes
triggers it. -/
theorem executor_gate {P B T : Type} (req : RpcRequest P B)
    (rs : List (RpcResponse T)) (h : allowedMethod req.method = true) :
    ((∃ r ∈ rs, r.pbh_error = true) →
      (validationCall (some req) (some rs)).spawned = false) ∧
    ((∀ r ∈ rs, r.pbh_error = false) →
      (validationCall (some req) (some rs)).spawned = true) := by
  have hsp : (validationCall (some req) (some rs)).spawned =
      rs.all (fun r => !r.pbh_error) := by
    simp only [validationCall, h, if_true]
    cases hsel : selectResponse rs <;> simp
  constructor
  · rintro ⟨r, hr, hpbh⟩
    rw [hsp]
    cases hall : rs.all (fun r => !r.pbh_error)
    · rfl
    · have := List.all_eq_true.mp hall r hr
      simp [hpbh] at this
  · intro hall
    rw [hsp, List.all_eq_true]
    intro r hr
    simp [hall r hr]

/-- Claim C3, witness: a single successful validator response triggers
the executor spawn. -/
theorem executor_gate_witness :
    (validationCall (some (⟨(), (), "eth_x"⟩ : RpcRequest Unit Unit))
        (some [(⟨0, none⟩ : RpcResponse Nat)])).spawned = true :=
  (executor_gate ⟨(), (), "eth_x"⟩ [⟨0, none⟩] (by decide)).2 (by decide)

/-- Claim C4: a request whose method contains neither allow-list
pattern as a substring is answered by the synthetic HTTP 200 response
carrying the JSON-RPC error `code -32601, "Method not found"`, with
neither the validator fan-out nor the executor spawn happening; and a
method is allowed exactly when it contains at least one of the two
patterns as a substring. -/
theorem allowlist_gate {P B T : Type} (req : RpcRequest P B)
    (fanResult : Option (List (RpcResponse T)))
    (h : ¬ (String.toList ("eth_") <:+: req.method.toList) ∧
         ¬ (String.toList ("net_peerCount") <:+: req.method.toList)) :
    validationCall (some req) fanResult =
      { fanInvoked := false, spawned := false
        outcome := .invalidMethod invalid_method_response } ∧
    invalid_method_response.status = 200 ∧
    invalid_method_response.contentType = "application/json" ∧
    invalid_method_response.body =
      "\x7b\"code\":-32601,\"message\":\"Method not found\"\x7d" ∧
    (∀ m : String, allowedMethod m = true ↔
      (String.toList ("eth_") <:+: m.toList ∨
        String.toList ("net_peerCount") <:+: m.toList)) := by
  have hiff : ∀ m : String, allowedMethod m = true ↔
      (String.toList ("eth_") <:+: m.toList ∨
        String.toList ("net_peerCount") <:+: m.toList) := by
    intro m
    simp [allowedMethod, ALLOWED_METHODS, strContains_iff_infix]
  have hallow : allowedMethod req.method = false := by
    rw [Bool.eq_false_iff]
    intro hc
    rcases (hiff req.method).mp hc with h1 | h2
    · exact h.1 h1
    · exact h.2 h2
  refine ⟨?_, rfl, rfl, by decide, hiff⟩
  simp [validationCall, hallow]

/-- Claim C4, witness: the method `bad_method` is rejected without
consulting the fan-out. -/
theorem allowlist_gate_witness :
    validationCall (some (⟨(), (), "bad_method"⟩ : RpcRequest Unit Unit))
        (none : Option (List (RpcResponse Nat))) =
      { fanInvoked := false, spawned := false
        outcome := .invalidMethod invalid_method_response } :=
  (allowlist_gate ⟨(), (), "bad_method"⟩ none (by constructor <;> decide)).1

/-- Claim C5, counterexample.  The claim states that when the body
fails to parse as a JSON-RPC response, `forward` still returns the
response successfully with `error = None`.  In the code the `?` after
`parse_response_payload` propagates the parse error, so `forward` fails
the call instead of returning
`RpcResponse \x7b response, error: None \x7d`. -/
theorem forward_parse_failure_counterexample :
    TxProxy.forward (some (0 : Nat)) (none : Option (ResponsePayload Nat)) = none ∧
    TxProxy.forward (some (0 : Nat)) (none : Option (ResponsePayload Nat)) ≠
      some ⟨0, none⟩ := by
  constructor <;> decide

/-- Claim C5 (amended): `forward` reads the full body and attempts the
JSON-RPC parse; when that parse fails, `forward` fails the whole call
(the parse error propagates) rather than returning the response, and
`error = None` is produced only when the body parses as a JSON-RPC
response whose payload is a success. -/
theorem forward_propagates_parse_failure {T V : Type} (resp : T)
    (parsedBody : Option (ResponsePayload V)) :
    (parse_response_payload parsedBody = none →
      TxProxy.forward (some resp) parsedBody = none) ∧
    (∀ payload, parse_response_payload parsedBody = some payload →
      TxProxy.forward (some resp) parsedBody =
        some { response := resp, error := payload }) ∧
    (parse_response_payload parsedBody = none ↔ parsedBody = none) ∧
    (∀ v : V, parsedBody = some (.success v) →
      TxProxy.forward (some resp) parsedBody = some { response := resp, error := none }) := by
  refine ⟨?_, ?_, ?_, ?_⟩
  · intro h
    simp [TxProxy.forward, h]
  · intro payload h
    simp [TxProxy.forward, h]
  · cases parsedBody with
    | none => simp [parse_response_payload]
    | some p => cases p <;> simp [parse_response_payload]
  · intro v h
    subst h
    simp [TxProxy.forward, parse_response_payload]

/-- Claim C5 (amended), witness: a transportable response whose body
does not parse makes the whole `forward` call fail. -/
theorem forward_propagates_parse_failure_witness :
    TxProxy.forward (some (3 : Nat)) (none : Option (ResponsePayload Nat)) = none :=
  (forward_propagates_parse_failure 3 none).1 rfl

/-- Claim C6: a transport error from any single validator target makes
`fan_request` fail as a whole, `ValidationService::call` then
propagates that error to the client, and the executor spawn never
happens. -/
theorem validator_transport_error_aborts {C P B T : Type}
    (fwd : C → Option (RpcResponse T)) (targets : List C) (c : C)
    (hmem : c ∈ targets) (herr : fwd c = none)
    (req : RpcRequest P B) (hallow : allowedMethod req.method = true) :
    fan_request fwd targets = none ∧
    validationCall (some req) (fan_request fwd targets) =
      { fanInvoked := true, spawned := false, outcome := .errored } := by
  have hnone : fan_request fwd targets = none := by
    apply try_join_all_eq_none_of_mem
    rw [← herr]
    exact List.mem_map_of_mem fwd hmem
  refine ⟨hnone, ?_⟩
  rw [hnone]
  simp [validationCall, hallow]

/-- Claim C6, witness: one unreachable target invalidates the round for
an allowed method. -/
theorem validator_transport_error_aborts_witness :
    validationCall (some (⟨(), (), "eth_x"⟩ : RpcRequest Unit Unit))
        (fan_request (fun _ : Unit => (none : Option (RpcResponse Nat))) [()]) =
      { fanInvoked := true, spawned := false, outcome := .errored } :=
  (validator_transport_error_aborts (fun _ => none) [()] () (by decide) rfl
    ⟨(), (), "eth_x"⟩ (by decide)).2

/-- Claim C7, counterexample.  The claim states that a request whose
`Authorization` value is not prefixed with `Bearer ` is answered with
401 and the inner service is not invoked.  `get_bearer` uses
`str::find`, a substring search, so the value `x Bearer tok` — which
does not start with `Bearer ` — still yields the token `tok`, and when
that token validates the request is forwarded to the inner service. -/
theorem auth_nonprefixed_bearer_forwarded :
    strStartsWith ("x Bearer tok") ("Bearer ") = false ∧
    authCall (fun _ => none) [("authorization", "x Bearer tok")] (0 : Nat) =
      .forwarded 0 := by
  constructor <;> decide

/-- Claim C7 (amended): the auth layer answers 401 with the textual
reason as body when the `Authorization` header is missing or its value
does not contain `Bearer ` as a substring (the inner service is then
not invoked); the bearer token is the text after the first occurrence
of `Bearer `, and when token validation succeeds the inner service is
invoked with the request unchanged. -/
theorem auth_gate {R : Type} (secretValidate : String → Option String)
    (headers : List (String × String)) (req : R) :
    (headers.find? (fun h => h.fst == "authorization") = none →
      authCall secretValidate headers req = .unauthorized 401 missingAuthMsg) ∧
    (∀ hd, headers.find? (fun h => h.fst == "authorization") = some hd →
      strContains hd.snd ("Bearer ") = false →
      authCall secretValidate headers req = .unauthorized 401 missingAuthMsg) ∧
    (∀ jwt, get_bearer headers = some jwt → secretValidate jwt = none →
      authCall secretValidate headers req = .forwarded req) ∧
    (∀ jwt msg, get_bearer headers = some jwt → secretValidate jwt = some msg →
      authCall secretValidate headers req = .unauthorized 401 msg) := by
  refine ⟨?_, ?_, ?_, ?_⟩
  · intro h
    simp [authCall, get_bearer, h]
  · intro hd hfind hsub
    have hidx : listFindSubstrIdx (String.toList ("Bearer ")) hd.snd.toList = none := by
      rw [strContains] at hsub
      cases hcase : listFindSubstrIdx (String.toList ("Bearer ")) hd.snd.toList with
      | none => rfl
      | some i =>
        rw [hcase] at hsub
        simp at hsub
    simp only [authCall, get_bearer, hfind, hidx]
  · intro jwt hjwt hval
    simp [authCall, hjwt, hval]
  · intro jwt msg hjwt hval
    simp [authCall, hjwt, hval]

/-- Claim C7 (amended), witness: a missing `Authorization` header is
answered with 401 and the missing-header reason. -/
theorem auth_gate_witness :
    authCall (fun _ => (none : Option String)) [] (0 : Nat) =
      .unauthorized 401 missingAuthMsg :=
  (auth_gate (fun _ => none) [] 0).1 rfl

/-- Claim C8: `pbh_error()` holds exactly when the `error` field is
populated with an object whose code is `-32603` and whose message
starts with the literal prefix `PBH Transaction Validation Failed`;
in particular it is false whenever `error` is `None`. -/
theorem pbh_error_characterization {T : Type} (r : RpcResponse T) :
    (r.pbh_error = true ↔ ∃ e : ErrorObject, r.error = some e ∧
      e.code = -32603 ∧ strStartsWith e.message pbhMsgHead = true) ∧
    (r.error = none → r.pbh_error = false) ∧
    INTERNAL_ERROR_CODE = -32603 ∧
    pbhMsgHead = "PBH Transaction Validation Failed" := by
  refine ⟨?_, ?_, rfl, rfl⟩
  · cases he : r.error with
    | none => simp [RpcResponse.pbh_error, he]
    | some e =>
      simp only [RpcResponse.pbh_error, he, Bool.and_eq_true, beq_iff_eq,
        INTERNAL_ERROR_CODE]
      constructor
      · rintro ⟨h1, h2⟩
        exact ⟨e, rfl, h1, h2⟩
      · rintro ⟨e2, he2, h1, h2⟩
        cases Option.some.inj he2
        exact ⟨h1, h2⟩
  · intro he
    simp [RpcResponse.pbh_error, he]

/-- Claim C8, witness: a response without an error object is not a PBH
veto. -/
theorem pbh_error_characterization_witness :
    (⟨0, none⟩ : RpcResponse Nat).pbh_error = false :=
  (pbh_error_characterization ⟨0, none⟩).2.1 rfl

/-- Claim C9: every `RpcRequest` produced by `from_request` caches as
`method` exactly the string decoded from the `"method"` field of the
JSON document stored in `body`; when reading the body or decoding the
method fails during ingress, no `RpcRequest` is produced. -/
theorem from_request_method_invariant {P B : Type} (parts : P)
    (bodyRead : Option B) (decodeMethod : B → Option String) :
    (∀ r, from_request parts bodyRead decodeMethod = some r →
      decodeMethod r.body = some r.method ∧ bodyRead = some r.body ∧
        r.parts = parts) ∧
    (bodyRead = none → from_request parts bodyRead decodeMethod = none) ∧
    (∀ b, bodyRead = some b → decodeMethod b = none →
      from_request parts bodyRead decodeMethod = none) := by
  refine ⟨?_, ?_, ?_⟩
  · intro r h
    cases bodyRead with
    | none => simp [from_request] at h
    | some b =>
      cases hm : decodeMethod b with
      | none => simp [from_request, hm] at h
      | some m =>
        simp only [from_request, hm] at h
        cases h
        exact ⟨hm, rfl, rfl⟩
  · intro h
    subst h
    rfl
  · intro b hb hm
    subst hb
    simp [from_request, hm]

/-- Claim C9, witness: a readable body whose decode yields `eth_x` is
cached with that very method string. -/
theorem from_request_method_invariant_witness :
    (fun _ : Unit => some ("eth_x"))
        ((⟨(), (), "eth_x"⟩ : RpcRequest Unit Unit).body) =
      some (⟨(), (), "eth_x"⟩ : RpcRequest Unit Unit).method :=
  ((from_request_method_invariant () (some ())
    (fun _ => some ("eth_x"))).1 ⟨(), (), "eth_x"⟩ rfl).1

/-- Claim C10: whenever `fan_request` succeeds it yields exactly one
response per target in target order, so for a non-empty target list the
`remove(0)` in both the validation layer and the proxy layer cannot
panic, and the failed-request quantity `targets.len() - responses.len()`
recorded by the metrics calls is zero. -/
theorem fanout_success_parity {C P B T : Type}
    (fwd : C → Option (RpcResponse T)) (targets : List C)
    (rs : List (RpcResponse T)) (hok : fan_request fwd targets = some rs) :
    rs.length = targets.length ∧
    ((targets.length : Int) - (rs.length : Int) = 0) ∧
    (targets ≠ [] → ∀ req : RpcRequest P B,
      (allowedMethod req.method = true →
        (validationCall (some req) (some rs)).outcome ≠ .panicked) ∧
      proxyCall (some req) (some rs) ≠ .panicked) := by
  have hlen : rs.length = targets.length := by
    have := try_join_all_length hok
    simpa using this
  refine ⟨hlen, by simp [hlen], ?_⟩
  intro hne req
  have hrs : rs ≠ [] := by
    intro hcon
    apply hne
    subst hcon
    exact List.length_eq_zero.mp hlen.symm
  obtain ⟨r0, rest, rfl⟩ := List.exists_cons_of_ne_nil hrs
  constructor
  · intro hallow
    simp [validationCall, hallow, selectResponse]
  · simp [proxyCall]

/-- Claim C10, witness: one target, one response, nothing panics and
the failed-request quantity is zero. -/
theorem fanout_success_parity_witness :
    ((1 : Int) - (1 : Int) = 0) ∧
    (validationCall (some (⟨(), (), "eth_x"⟩ : RpcRequest Unit Unit))
        (some [(⟨5, none⟩ : RpcResponse Nat)])).outcome ≠ .panicked :=
  ⟨(fanout_success_parity (P := Unit) (B := Unit)
      (fun _ : Unit => some ⟨5, none⟩) [()] [⟨5, none⟩] rfl).2.1,
   ((fanout_success_parity (P := Unit) (B := Unit)
      (fun _ : Unit => some ⟨5, none⟩) [()] [⟨5, none⟩]
      rfl).2.2 (by decide) ⟨(), (), "eth_x"⟩).1 (by decide)⟩

end TxProxy
